import Mathlib

/-!
Verification of the webserver-base repository core: reverse-proxy header
rewriting, the priority merge algorithm, directory scanning, middleware
resolution, virtual-host composition, the persistence wrapper and the
ServerManager directory-registration methods.  Each JavaScript function is
shallowly embedded as an executable Lean definition; strings are modelled
as lists of characters, and JavaScript exceptions as explicit error values.
-/

/-- JavaScript runtime errors that the embedded code can raise. -/
inductive JsError where
  | typeError
  | pathNotAbsolute
deriving DecidableEq

/-- Character-by-character prefix test: `leadsList pat s` holds when `pat`
occurs at the very start of `s`.  This is the matching step of JavaScript
string search. -/
def leadsList : List Char → List Char → Bool
  | [], _ => true
  | _ :: _, [] => false
  | p :: ps, c :: cs => p == c && leadsList ps cs

/-- Substring test: `containsSub pat s` holds when `pat` occurs somewhere in
`s` (the sense in which a header value "contains" the backend hostname). -/
def containsSub (pat : List Char) : List Char → Bool
  | [] => leadsList pat []
  | c :: cs => leadsList pat (c :: cs) || containsSub pat cs

/-- Index of the first occurrence of `pat` in the second list, if any.  This
is what JavaScript `String.prototype.indexOf` computes and what a
`replace` call with a string pattern locates. -/
def firstOccur (pat : List Char) : List Char → Option Nat
  | [] => if leadsList pat [] then some 0 else none
  | c :: cs =>
    if leadsList pat (c :: cs) then some 0
    else (firstOccur pat cs).map (fun n => n + 1)

/-- JavaScript `s.replace(pat, repl)` with a string pattern: only the FIRST
occurrence of `pat` is replaced; a string without an occurrence is returned
unchanged. -/
def jsReplaceFirst (s pat repl : List Char) : List Char :=
  match firstOccur pat s with
  | none => s
  | some i => s.take i ++ repl ++ s.drop (i + pat.length)

/-- Fuel-bounded worker for `replaceAllSpec`; each step consumes at least
one character, so fuel equal to the length of the string suffices. -/
def replaceAllGo (pat repl : List Char) : Nat → List Char → List Char
  | _, [] => []
  | 0, s => s
  | fuel + 1, c :: cs =>
    if !pat.isEmpty && leadsList pat (c :: cs) then
      repl ++ replaceAllGo pat repl fuel ((c :: cs).drop pat.length)
    else c :: replaceAllGo pat repl fuel cs

/-- Modelled from the spec: replace EVERY occurrence of the pattern, left to
right and non-overlapping.  Used only to state the claim that the code
rewrites all occurrences of the backend hostname. -/
def replaceAllSpec (pat repl s : List Char) : List Char :=
  replaceAllGo pat repl s.length s

/-- A response header value: a string, or a non-string value (numbers and
string arrays in Node), the latter modelled by an opaque tag. -/
inductive HeaderValue where
  | str (s : List Char)
  | nonStr (tag : Nat)
deriving DecidableEq

/-- The `userResHeaderDecorator` callback of the reverse-proxy middleware:
for every header, a string value is rewritten by
`headers[x].replace(localname, hostname)` and any non-string value is left
untouched.  `localname` is the backend hostname, `hostname` the original
external hostname. -/
def userResHeaderDecorator (localname hostname : List Char)
    (headers : List (List Char × HeaderValue)) : List (List Char × HeaderValue) :=
  headers.map (fun kv =>
    (kv.1,
      match kv.2 with
      | .str s => .str (jsReplaceFirst s localname hostname)
      | .nonStr tag => .nonStr tag))

/-- Spec-level description of a first-occurrence rewrite of one header
value: non-string values pass through; a string without the backend
hostname is unchanged; otherwise the leftmost occurrence is replaced by
the external hostname. -/
def SpecFirstRewrite (localname hostname : List Char) :
    HeaderValue → HeaderValue → Prop
  | .nonStr tag, out => out = .nonStr tag
  | .str s, out =>
    (containsSub localname s = false ∧ out = .str s) ∨
    (∃ p q, s = p ++ localname ++ q ∧ out = .str (p ++ hostname ++ q) ∧
      ∀ p2 q2, s = p2 ++ localname ++ q2 → p.length ≤ p2.length)

/-- Look up a hostname in the proxy-route mapping table; `none` models the
SQL `get` returning `undefined` when no row matches. -/
def dbGet (db : List (List Char × List Char)) (hostname : List Char) :
    Option (List Char) :=
  (db.find? (fun row => row.1 == hostname)).map (fun row => row.2)

/-- Observable outcome of one run of the reverse-proxy `use` middleware on a
request. -/
structure ProxyMwResult where
  nextCalled : Bool
  responded : Bool
  threw : Bool
  proxiedTo : Option (List Char)
deriving DecidableEq

/-- The reverse-proxy `use` middleware body.  The code runs
`if (!localname) next();` WITHOUT a return, and then unconditionally
evaluates `localname.localhost`; when the lookup produced `undefined` that
property access raises a TypeError after the continuation has already been
invoked.  When a mapping exists the request is handed to the external
proxy collaborator. -/
def proxyUse (db : List (List Char × List Char)) (hostname : List Char) :
    ProxyMwResult :=
  match dbGet db hostname with
  | none =>
    { nextCalled := true, responded := false, threw := true, proxiedTo := none }
  | some localname =>
    { nextCalled := false, responded := false, threw := false,
      proxiedTo := some localname }

/-- Kind tag of one entry placed on a router: a route handler or a `use`
middleware. -/
inductive EKind where
  | route
  | use
deriving DecidableEq

/-- One element of the sorted registration sequence (`toLoad` after the
uses have been appended): its kind, the priority it will be sorted by, and
an identity token standing for the source file or middleware object. -/
structure REntry where
  kind : EKind
  priority : Int
  id : Nat
deriving DecidableEq

/-- One validated handler definition at one directory level, with its
middleware already resolved: `uses` lists the identity tokens of the
resolved middleware entries in encounter order. -/
structure RouteData where
  id : Nat
  priority : Int
  startingUsePriority : Option Int
  specificUsePriorities : Option (List Int)
  uses : List Nat
deriving DecidableEq

/-- JavaScript `route.startingUsePriority || -1`: an absent value defaults
to -1, and so does an explicit 0, because 0 is falsy. -/
def jsStart (s : Option Int) : Int :=
  match s with
  | none => -1
  | some v => if v = 0 then -1 else v

/-- JavaScript `route.specificUsePriorities?.[i]`: optional chaining plus
positional indexing, `undefined` past the end or when the list is absent. -/
def specAt (spec : Option (List Int)) (i : Nat) : Option Int :=
  match spec with
  | none => none
  | some l => l.get? i

/-- The middleware priority-assignment loop of `#loadRoutes`: walk the
resolved uses, taking `specificUsePriorities` positionally and otherwise
consuming the strictly decreasing fallback counter. -/
def assignGo (spec : Option (List Int)) : Int → Nat → List Nat → List REntry
  | _, _, [] => []
  | fb, idx, u :: us =>
    match specAt spec idx with
    | some p => ⟨.use, p, u⟩ :: assignGo spec fb (idx + 1) us
    | none => ⟨.use, fb, u⟩ :: assignGo spec (fb - 1) (idx + 1) us

/-- All `use` entries contributed by one handler definition, with the
priorities the code assigns them. -/
def routeUses (r : RouteData) : List REntry :=
  assignGo r.specificUsePriorities (jsStart r.startingUsePriority) 0 r.uses

/-- The route-kind entries of one directory level, in file-scan order. -/
def levelRoutes (routes : List RouteData) : List REntry :=
  routes.map (fun r => ⟨.route, r.priority, r.id⟩)

/-- The use-kind entries of one directory level (`allUses`), handler by
handler in scan order. -/
def levelUses (routes : List RouteData) : List REntry :=
  routes.flatMap routeUses

/-- Descending priority order, generic in the priority projection.  The
sort comparator in the source is `(a, b) => b.priority - a.priority`. -/
def prioGe {α : Type} (pr : α → Int) (a b : α) : Prop :=
  pr b ≤ pr a

instance {α : Type} (pr : α → Int) : DecidableRel (prioGe pr) :=
  fun a b => inferInstanceAs (Decidable (pr b ≤ pr a))

instance {α : Type} (pr : α → Int) : IsTotal α (prioGe pr) :=
  ⟨fun a b => le_total (pr b) (pr a)⟩

instance {α : Type} (pr : α → Int) : IsTrans α (prioGe pr) :=
  ⟨fun _ _ _ h1 h2 => le_trans h2 h1⟩

/-- The merged registration sequence of one directory level:
`toLoad.push(...allUses)` followed by the stable descending sort
`toLoad.sort((a, b) => b.priority - a.priority)` (JavaScript array sort is
stable, so it is the stable insertion sort by descending priority). -/
def mergeSequence (routes : List RouteData) : List REntry :=
  List.insertionSort (prioGe REntry.priority) (levelRoutes routes ++ levelUses routes)

/-- Helper for the amended middleware-priority claim: the strictly
descending run of integers of length `n` starting at `s`. -/
def descendingFrom (s : Int) : Nat → List Int
  | 0 => []
  | n + 1 => s :: descendingFrom (s - 1) n

/-- One event of the registration phase of `#loadRoutes`: registering a
sorted entry, or mounting one queued subdirectory router at `/<dirname>`. -/
inductive BuildEvent where
  | entry (e : REntry)
  | mountSub (path : List Char)
deriving DecidableEq

/-- The mount path of a child router for a subdirectory, the template
string being a slash followed by the directory name. -/
def mountPath (n : List Char) : List Char :=
  ['/'] ++ n

/-- The registration loop over the sorted entries, with `dirScanned` still
false: the queued subrouters are mounted immediately before the first
entry of priority at most 0, and after the loop when no such entry
exists. -/
def buildGo (subs : List (List Char)) : List REntry → List BuildEvent
  | [] => subs.map (fun n => .mountSub (mountPath n))
  | e :: rest =>
    if e.priority ≤ 0 then
      subs.map (fun n => BuildEvent.mountSub (mountPath n))
        ++ BuildEvent.entry e :: rest.map BuildEvent.entry
    else BuildEvent.entry e :: buildGo subs rest

/-- The full registration phase: when `toLoad` is empty the subrouters are
mounted directly, otherwise the loop of `buildGo` runs. -/
def buildSeq (entries : List REntry) (subs : List (List Char)) : List BuildEvent :=
  if entries.isEmpty then subs.map (fun n => .mountSub (mountPath n))
  else buildGo subs entries

/-- Split a character list at every dot, mirroring `filepath.split(".")`. -/
def splitOnDot : List Char → List (List Char)
  | [] => [[]]
  | c :: cs =>
    let r := splitOnDot cs
    if c == '.' then [] :: r
    else
      match r with
      | [] => [[c]]
      | g :: gs => (c :: g) :: gs

/-- The extension check `filepath.split(".").pop() !== "js"` of the scanning
loops: the final dot-separated component must be exactly `js`. -/
def hasJsExt (n : List Char) : Bool :=
  (splitOnDot n).getLast? == some ("js".data)

/-- The exported shape of a handler module as far as validation reads it:
its `path`, its optional `priority`, and the keys of its `methods`
object. -/
structure RouteModule where
  path : Option (List Char)
  priority : Option Int
  methods : List (List Char)
deriving DecidableEq

/-- What `require` does for one file: raise, or produce a module. -/
inductive LoadOutcome where
  | throws
  | mod (m : RouteModule)
deriving DecidableEq

/-- One directory entry seen by the scanning loop of `#loadRoutes`. -/
structure FileEntry where
  name : List Char
  isDir : Bool
  load : LoadOutcome
deriving DecidableEq

/-- The recognized HTTP method set of the handler validator. -/
def recognizedMethods : List (List Char) :=
  ["checkout", "copy", "delete", "get", "head", "lock", "merge",
   "mkactivity", "mkcol", "move", "m-search", "notify", "options", "patch",
   "post", "purge", "put", "report", "search", "subscribe", "trace",
   "unlock", "unsubscribe", "all"].map String.data

/-- Log lines emitted while scanning one directory level. -/
inductive LogEvent where
  | loadError (file : List Char)
  | warnNoPath (file : List Char)
  | infoDefaultPriority (file : List Char)
  | warnNoMethods (file : List Char)
deriving DecidableEq

/-- A validated route pushed onto `toLoad` by the scanning loop. -/
structure ScannedRoute where
  path : List Char
  priority : Int
  validMethods : List (List Char)
  filename : List Char
deriving DecidableEq

/-- Accumulated effects of the scanning loop: the queued subdirectories,
the log lines, and the validated routes. -/
structure ScanState where
  subdirs : List (List Char)
  logs : List LogEvent
  routes : List ScannedRoute
deriving DecidableEq

/-- The empty scan state at the start of one directory level. -/
def initialScanState : ScanState :=
  ⟨[], [], []⟩

/-- The file loop of `#loadRoutes` (the scan of one directory).  A load
failure is caught and logged, but the catch block does not skip the file:
the very next statement reads `route.path` from the still-undefined
variable, which raises a TypeError that aborts the whole scan.  An
empty or missing `path` is warned about and skipped, a missing priority
defaults to 0 with an informational log, and a module without recognized
method keys is warned about and skipped. -/
def scanFiles : ScanState → List FileEntry → ScanState × Option JsError
  | st, [] => (st, none)
  | st, f :: rest =>
    let st1 := if f.isDir then { st with subdirs := st.subdirs ++ [f.name] } else st
    if hasJsExt f.name = false then scanFiles st1 rest
    else
      match f.load with
      | .throws =>
        ({ st1 with logs := st1.logs ++ [.loadError f.name] }, some .typeError)
      | .mod m =>
        match m.path with
        | none => scanFiles { st1 with logs := st1.logs ++ [.warnNoPath f.name] } rest
        | some [] => scanFiles { st1 with logs := st1.logs ++ [.warnNoPath f.name] } rest
        | some (c :: cs) =>
          let stp : ScanState :=
            match m.priority with
            | none => { st1 with logs := st1.logs ++ [.infoDefaultPriority f.name] }
            | some _ => st1
          let pr : Int := match m.priority with | none => 0 | some v => v
          let valid := m.methods.filter (fun x => recognizedMethods.contains x)
          if valid.isEmpty then
            scanFiles { stp with logs := stp.logs ++ [.warnNoMethods f.name] } rest
          else
            scanFiles { stp with routes := stp.routes ++ [⟨c :: cs, pr, valid, f.name⟩] } rest

/-- What `require` does for one middleware file: raise, or produce a module
with a possibly-absent runnable function, name and priority. -/
inductive UseLoad where
  | throws
  | mod (run : Bool) (name : Option (List Char)) (priority : Option Int)
deriving DecidableEq

mutual
/-- A node of the middleware search tree: a file with its load outcome, or
a directory with named children. -/
inductive FsNode where
  | file (load : UseLoad)
  | dir (entries : FsEntries)
/-- A directory listing of the middleware search tree, in listing order. -/
inductive FsEntries where
  | nil
  | cons (name : List Char) (node : FsNode) (rest : FsEntries)
end

/-- A middleware entry accepted by `#getUses`: it has a runnable function,
an optional name, and the priority after the falsy-default step. -/
structure UseEntry where
  run : Bool
  name : Option (List Char)
  priority : Int
deriving DecidableEq

/-- JavaScript `if (!use.priority) use.priority = 0`: an absent (or zero)
priority becomes 0, any other declared value is kept. -/
def jsPriorityDefault (p : Option Int) : Int :=
  match p with
  | none => 0
  | some v => if v = 0 then 0 else v

/-- The scanning loop of `#getUses` over one directory listing.  A
subdirectory triggers a recursive call whose RESULT IS DISCARDED (only its
exceptions escape); a non-js name is skipped; a load failure is logged but
then `use.run` is read from the undefined variable, raising a TypeError; a
module without a runnable function is warned about and skipped; accepted
modules are collected in listing order.  A directory whose own name ends
in `.js` would be passed to `require`, modelled as a load failure. -/
def getUsesList : FsEntries → Except JsError (List UseEntry)
  | .nil => .ok []
  | .cons n (.dir sub) rest =>
    match getUsesList sub with
    | .error e => .error e
    | .ok _ =>
      if hasJsExt n then .error .typeError
      else getUsesList rest
  | .cons n (.file l) rest =>
    if hasJsExt n = false then getUsesList rest
    else
      match l with
      | .throws => .error .typeError
      | .mod run nm pr =>
        if run = false then getUsesList rest
        else
          match getUsesList rest with
          | .error e => .error e
          | .ok t => .ok (⟨true, nm, jsPriorityDefault pr⟩ :: t)

/-- `#getUses` on one explicit directory: scan it, then sort the collected
entries by descending priority with the stable array sort. -/
def getUsesDir (entries : FsEntries) : Except JsError (List UseEntry) :=
  match getUsesList entries with
  | .error e => .error e
  | .ok l => .ok (List.insertionSort (prioGe UseEntry.priority) l)

/-- Well-formedness of a middleware search tree: no file anywhere fails to
load and no directory is named like a js file, so the scan raises no
exception. -/
def cleanEntries : FsEntries → Bool
  | .nil => true
  | .cons n (.dir sub) rest => !hasJsExt n && cleanEntries sub && cleanEntries rest
  | .cons n (.file l) rest =>
    (if hasJsExt n then
      match l with
      | .throws => false
      | .mod _ _ _ => true
    else true) && cleanEntries rest

/-- The middleware entries contributed by the files DIRECTLY in the listed
directory (subdirectory contents excluded), in listing order. -/
def topLevelUses : FsEntries → List UseEntry
  | .nil => []
  | .cons _ (.dir _) rest => topLevelUses rest
  | .cons n (.file l) rest =>
    if hasJsExt n then
      match l with
      | .mod true nm pr => ⟨true, nm, jsPriorityDefault pr⟩ :: topLevelUses rest
      | _ => topLevelUses rest
    else topLevelUses rest

/-- The literal vhost marker of the directory-name convention: a dot
followed by an opening and a closing curly brace. -/
def vhostMarker : List Char :=
  ['.', '\x7b', '\x7d']

/-- The test of `/\S+\.{}/` on a directory name: somewhere in the name a
non-whitespace character is immediately followed by the marker. -/
def matchesVhostPattern : List Char → Bool
  | [] => false
  | c :: rest => (!c.isWhitespace && leadsList vhostMarker rest) || matchesVhostPattern rest

/-- One candidate directory under a vhost root: its name, the names of the
directories inside it, and the files of its `routes` directory. -/
structure VhostDir where
  name : List Char
  inner : List (List Char)
  routesFiles : List FileEntry

/-- Building one vhost's dispatch tree is the route scan of its `routes`
directory. -/
def buildVhostRoutes (v : VhostDir) : ScanState × Option JsError :=
  scanFiles initialScanState v.routesFiles

/-- Whether `#loadVhosts` builds a candidate at all: its name matches the
vhost pattern and it contains a `routes` directory. -/
def vhostActive (v : VhostDir) : Bool :=
  matchesVhostPattern v.name && v.inner.contains ("routes".data)

/-- The `#loadVhosts` loop: candidates are processed in order with no
try/catch around the per-vhost build, so the first build failure escapes
the loop.  It returns the names of the vhosts actually mounted and the
escaped error, if any. -/
def loadVhosts : List VhostDir → List (List Char) × Option JsError
  | [] => ([], none)
  | v :: rest =>
    if vhostActive v then
      match (buildVhostRoutes v).2 with
      | some e => ([], some e)
      | none =>
        let r := loadVhosts rest
        (v.name :: r.1, r.2)
    else loadVhosts rest

/-- Connection lifecycle events of the persistence wrapper. -/
inductive DbEvent where
  | opened
  | closed
deriving DecidableEq

/-- Errors escaping `DatabaseManager.operation`: the not-initialised guard,
or an error raised by the supplied function (carrying its code). -/
inductive OpError where
  | notReady
  | fromF (code : Nat)
deriving DecidableEq

/-- `DatabaseManager.operation(f)`: guard on the ready flag, open a
connection (its handle modelled as 0), run `f` on it inside try/catch —
closing the connection and re-raising on failure — and otherwise close
the connection and return the result. -/
def operation {α : Type} (ready : Bool) (f : Nat → Except Nat α) :
    List DbEvent × Except OpError α :=
  if ready = false then ([], .error .notReady)
  else
    match f 0 with
    | .error e => ([DbEvent.opened, DbEvent.closed], .error (.fromF e))
    | .ok v => ([DbEvent.opened, DbEvent.closed], .ok v)

/-- The four private directory lists of a ServerManager. -/
structure SMState where
  vhostDirectories : List (List Char)
  routeDirectories : List (List Char)
  staticDirectories : List (List Char)
  useDirectories : List (List Char)
deriving DecidableEq

/-- The state set up by the constructor: four empty lists. -/
def initialSMState : SMState :=
  ⟨[], [], [], []⟩

/-- POSIX `path.isAbsolute`: the path starts with a slash. -/
def isAbsolutePath (p : List Char) : Bool :=
  match p with
  | [] => false
  | c :: _ => c == '/'

/-- `addRouteDirectory`: throw before any mutation when the path is not
absolute, otherwise push the directory unless it is already present. -/
def addRouteDirectory (s : SMState) (dir : List Char) : SMState × Option JsError :=
  if isAbsolutePath dir = false then (s, some .pathNotAbsolute)
  else
    ({ s with routeDirectories :=
        if s.routeDirectories.contains dir then s.routeDirectories
        else s.routeDirectories ++ [dir] }, none)

/-- `addUseDirectory`, same shape as `addRouteDirectory`. -/
def addUseDirectory (s : SMState) (dir : List Char) : SMState × Option JsError :=
  if isAbsolutePath dir = false then (s, some .pathNotAbsolute)
  else
    ({ s with useDirectories :=
        if s.useDirectories.contains dir then s.useDirectories
        else s.useDirectories ++ [dir] }, none)

/-- `addStaticDirectory`, same shape as `addRouteDirectory`. -/
def addStaticDirectory (s : SMState) (dir : List Char) : SMState × Option JsError :=
  if isAbsolutePath dir = false then (s, some .pathNotAbsolute)
  else
    ({ s with staticDirectories :=
        if s.staticDirectories.contains dir then s.staticDirectories
        else s.staticDirectories ++ [dir] }, none)

/-- `addVhostDirectory`, same shape as `addRouteDirectory`. -/
def addVhostDirectory (s : SMState) (dir : List Char) : SMState × Option JsError :=
  if isAbsolutePath dir = false then (s, some .pathNotAbsolute)
  else
    ({ s with vhostDirectories :=
        if s.vhostDirectories.contains dir then s.vhostDirectories
        else s.vhostDirectories ++ [dir] }, none)

/-- One directory-registration call on the ServerManager. -/
inductive DirOp where
  | addRoute (dir : List Char)
  | addUse (dir : List Char)
  | addStatic (dir : List Char)
  | addVhost (dir : List Char)

/-- Apply one registration call to the state (a thrown error leaves the
state as it was). -/
def applyOp (s : SMState) (op : DirOp) : SMState :=
  match op with
  | .addRoute d => (addRouteDirectory s d).1
  | .addUse d => (addUseDirectory s d).1
  | .addStatic d => (addStaticDirectory s d).1
  | .addVhost d => (addVhostDirectory s d).1

/-- Apply a sequence of registration calls. -/
def applyOps (s : SMState) (ops : List DirOp) : SMState :=
  ops.foldl applyOp s

/-- All four directory lists are duplicate-free. -/
def nodupState (s : SMState) : Prop :=
  s.vhostDirectories.Nodup ∧ s.routeDirectories.Nodup ∧
    s.staticDirectories.Nodup ∧ s.useDirectories.Nodup

instance (s : SMState) : Decidable (nodupState s) := by
  unfold nodupState
  infer_instance

/-! ### Lemmas about prefix matching and first occurrences -/

theorem leadsList_iff_append (p : List Char) :
    ∀ s : List Char, leadsList p s = true ↔ ∃ t, s = p ++ t := by
  induction p with
  | nil =>
    intro s
    simp [leadsList]
  | cons a ps ih =>
    intro s
    cases s with
    | nil =>
      simp [leadsList]
    | cons c cs =>
      simp only [leadsList, Bool.and_eq_true, beq_iff_eq, List.cons_append,
        List.cons.injEq]
      constructor
      · rintro ⟨h1, h2⟩
        obtain ⟨t, ht⟩ := (ih cs).mp h2
        exact ⟨t, h1.symm, ht⟩
      · rintro ⟨t, h1, h2⟩
        exact ⟨h1.symm, (ih cs).mpr ⟨t, h2⟩⟩

theorem leadsList_append_self (p t : List Char) :
    leadsList p (p ++ t) = true :=
  (leadsList_iff_append p (p ++ t)).mpr ⟨t, rfl⟩

theorem firstOccur_none_iff (pat : List Char) :
    ∀ s : List Char, firstOccur pat s = none ↔ containsSub pat s = false := by
  intro s
  induction s with
  | nil =>
    cases h : leadsList pat [] <;> simp [firstOccur, containsSub, h]
  | cons c cs ih =>
    cases h : leadsList pat (c :: cs) <;>
      simp [firstOccur, containsSub, h, Option.map_eq_none', ih]

theorem firstOccur_leads (pat : List Char) :
    ∀ (s : List Char) (i : Nat), firstOccur pat s = some i →
      leadsList pat (s.drop i) = true := by
  intro s
  induction s with
  | nil =>
    intro i h
    cases hl : leadsList pat [] with
    | true =>
      simp [firstOccur, hl] at h
      subst h
      simpa using hl
    | false =>
      simp [firstOccur, hl] at h
  | cons c cs ih =>
    intro i h
    cases hl : leadsList pat (c :: cs) with
    | true =>
      simp [firstOccur, hl] at h
      subst h
      simpa using hl
    | false =>
      simp [firstOccur, hl, Option.map_eq_some'] at h
      obtain ⟨n, hn, rfl⟩ := h
      simpa using ih n hn

theorem firstOccur_le_length (pat : List Char) :
    ∀ (s : List Char) (i : Nat), firstOccur pat s = some i → i ≤ s.length := by
  intro s
  induction s with
  | nil =>
    intro i h
    cases hl : leadsList pat [] with
    | true =>
      simp [firstOccur, hl] at h
      omega
    | false =>
      simp [firstOccur, hl] at h
  | cons c cs ih =>
    intro i h
    cases hl : leadsList pat (c :: cs) with
    | true =>
      simp [firstOccur, hl] at h
      omega
    | false =>
      simp [firstOccur, hl, Option.map_eq_some'] at h
      obtain ⟨n, hn, rfl⟩ := h
      have := ih n hn
      simp only [List.length_cons]
      omega

theorem firstOccur_min (pat : List Char) :
    ∀ (s : List Char) (i j : Nat), firstOccur pat s = some i →
      leadsList pat (s.drop j) = true → i ≤ j := by
  intro s
  induction s with
  | nil =>
    intro i j h _
    cases hl : leadsList pat [] with
    | true =>
      simp [firstOccur, hl] at h
      omega
    | false =>
      simp [firstOccur, hl] at h
  | cons c cs ih =>
    intro i j h hj
    cases hl : leadsList pat (c :: cs) with
    | true =>
      simp [firstOccur, hl] at h
      omega
    | false =>
      simp [firstOccur, hl, Option.map_eq_some'] at h
      obtain ⟨n, hn, rfl⟩ := h
      cases j with
      | zero =>
        rw [List.drop_zero] at hj
        rw [hj] at hl
        cases hl
      | succ j0 =>
        have h2 : leadsList pat (cs.drop j0) = true := by simpa using hj
        have h3 : n ≤ j0 := ih n j0 hn h2
        omega

theorem jsReplaceFirst_spec (localname hostname s : List Char) :
    SpecFirstRewrite localname hostname (.str s)
      (.str (jsReplaceFirst s localname hostname)) := by
  cases h : firstOccur localname s with
  | none =>
    left
    refine ⟨(firstOccur_none_iff localname s).mp h, ?_⟩
    rw [jsReplaceFirst, h]
  | some i =>
    right
    have hle : i ≤ s.length := firstOccur_le_length localname s i h
    have hld : leadsList localname (s.drop i) = true := firstOccur_leads localname s i h
    obtain ⟨t, ht⟩ := (leadsList_iff_append localname (s.drop i)).mp hld
    refine ⟨s.take i, t, ?_, ?_, ?_⟩
    · conv_lhs => rw [← List.take_append_drop i s]
      rw [ht, ← List.append_assoc]
    · simp only [jsReplaceFirst, h]
      have hdd : s.drop (i + localname.length) = t := by
        rw [← List.drop_drop, ht, List.drop_left]
      rw [hdd]
    · intro p2 q2 hpq
      have hl2 : leadsList localname (s.drop p2.length) = true := by
        rw [hpq, List.append_assoc, List.drop_left]
        exact leadsList_append_self localname q2
      have hmin : i ≤ p2.length := firstOccur_min localname s i p2.length h hl2
      simp only [List.length_take]
      omega

/-- C1 (amended): for a mapped hostname, every string header value has the
FIRST occurrence of the backend hostname replaced with the external
hostname (not all occurrences); a string value without an occurrence is
unchanged, and non-string values pass through unmodified. -/
theorem userResHeaderDecorator_first_occurrence
    (localname hostname : List Char) (headers : List (List Char × HeaderValue)) :
    List.Forall₂
      (fun inp out => inp.1 = out.1 ∧ SpecFirstRewrite localname hostname inp.2 out.2)
      headers (userResHeaderDecorator localname hostname headers) := by
  induction headers with
  | nil =>
    exact List.Forall₂.nil
  | cons kv rest ih =>
    refine List.Forall₂.cons ⟨rfl, ?_⟩ ih
    obtain ⟨k, v⟩ := kv
    cases v with
    | str s => exact jsReplaceFirst_spec localname hostname s
    | nonStr tag => rfl

/-- C1 counterexample: with backend hostname `b` and external hostname `x`,
the header value `bb` contains the backend hostname twice but the code
produces `xb`, not the all-occurrences rewrite `xx`; so the claim that all
occurrences are replaced is false. -/
theorem userResHeaderDecorator_not_all_occurrences :
    userResHeaderDecorator ("b".data) ("x".data)
        [(("Location".data), HeaderValue.str ("bb".data))]
      = [(("Location".data), HeaderValue.str ("xb".data))] ∧
    replaceAllSpec ("b".data) ("x".data) ("bb".data) = ("xx".data) ∧
    ("xb".data) ≠ ("xx".data) := by
  refine ⟨?_, ?_, ?_⟩ <;> decide

/-- C2 (code bug evaluated): on a request whose hostname has no ProxyRoute
mapping, the middleware does call the continuation and sends no response,
but it then dereferences the undefined lookup result and raises a
TypeError, contradicting the claim that no error is raised. -/
theorem proxyUse_unmapped_calls_next_then_throws :
    (proxyUse [] ("unmapped.example.com".data)).nextCalled = true ∧
    (proxyUse [] ("unmapped.example.com".data)).responded = false ∧
    (proxyUse [] ("unmapped.example.com".data)).threw = true := by
  refine ⟨rfl, rfl, rfl⟩

/-! ### Stability of the descending insertion sort -/

theorem filter_orderedInsert_prio {α : Type} (pr : α → Int) (p : Int) (x : α) :
    ∀ l : List α,
      (List.orderedInsert (prioGe pr) x l).filter (fun e => pr e == p) =
        if pr x == p then x :: l.filter (fun e => pr e == p)
        else l.filter (fun e => pr e == p) := by
  intro l
  induction l with
  | nil =>
    by_cases hx : (pr x == p) = true <;> simp [List.orderedInsert, hx]
  | cons b l ih =>
    by_cases hr : prioGe pr x b
    · simp only [List.orderedInsert, if_pos hr]
      by_cases hx : (pr x == p) = true <;> simp [List.filter_cons, hx]
    · simp only [List.orderedInsert, if_neg hr]
      simp only [List.filter_cons, ih]
      by_cases hx : (pr x == p) = true
      · have hxp : pr x = p := by simpa using hx
        have hbg : p < pr b := by
          have : ¬ (pr b ≤ pr x) := hr
          omega
        have hb : (pr b == p) = false := by
          simp only [beq_eq_false_iff_ne, ne_eq]
          omega
        simp [hx, hb]
      · simp [hx]

theorem filter_insertionSort_prio {α : Type} (pr : α → Int) (p : Int) :
    ∀ l : List α,
      (List.insertionSort (prioGe pr) l).filter (fun e => pr e == p) =
        l.filter (fun e => pr e == p) := by
  intro l
  induction l with
  | nil => rfl
  | cons x l ih =>
    simp only [List.insertionSort]
    rw [filter_orderedInsert_prio, ih, List.filter_cons]

/-- C3: the merged registration sequence of one directory level is sorted
in descending priority, and for each priority value the equally
prioritized entries keep their insertion order — all route-kind entries
(in scan order) before all use-kind entries (in resolution order), so in
particular each handler's routes precede its own middleware on ties. -/
theorem mergeSequence_sorted_and_stable (routes : List RouteData) (p : Int) :
    List.Sorted (prioGe REntry.priority) (mergeSequence routes) ∧
    (mergeSequence routes).filter (fun e => e.priority == p) =
      (levelRoutes routes).filter (fun e => e.priority == p) ++
        (levelUses routes).filter (fun e => e.priority == p) := by
  constructor
  · exact List.sorted_insertionSort (prioGe REntry.priority) _
  · rw [mergeSequence, filter_insertionSort_prio, List.filter_append]

/-! ### Middleware priority assignment -/

theorem assignGo_none_priorities :
    ∀ (us : List Nat) (fb : Int) (idx : Nat),
      (assignGo none fb idx us).map REntry.priority = descendingFrom fb us.length := by
  intro us
  induction us with
  | nil =>
    intro fb idx
    rfl
  | cons u us ih =>
    intro fb idx
    simp only [assignGo, specAt, List.map_cons, List.length_cons, descendingFrom]
    rw [ih (fb - 1) (idx + 1)]

theorem mem_descendingFrom_le :
    ∀ (n : Nat) (s x : Int), x ∈ descendingFrom s n → x ≤ s := by
  intro n
  induction n with
  | zero =>
    intro s x h
    simp [descendingFrom] at h
  | succ n ih =>
    intro s x h
    simp only [descendingFrom, List.mem_cons] at h
    rcases h with h | h
    · omega
    · have := ih (s - 1) x h
      omega

theorem pairwise_descendingFrom :
    ∀ (n : Nat) (s : Int), (descendingFrom s n).Pairwise (fun a b => b < a) := by
  intro n
  induction n with
  | zero =>
    intro s
    simp [descendingFrom]
  | succ n ih =>
    intro s
    simp only [descendingFrom, List.pairwise_cons]
    refine ⟨fun x hx => ?_, ih (s - 1)⟩
    have := mem_descendingFrom_le n (s - 1) x hx
    omega

/-- C5 counterexample: a handler that explicitly sets startingUsePriority
to 0 gets its single unlabelled middleware assigned priority -1, not the
declared 0, because `startingUsePriority || -1` treats 0 as falsy. -/
theorem routeUses_starting_zero_counterexample :
    (routeUses ⟨7, 1, some 0, none, [3]⟩).map REntry.priority = [-1] ∧
    (routeUses ⟨7, 1, some 0, none, [3]⟩).map REntry.priority ≠ [0] := by
  exact ⟨by decide, by decide⟩

/-- C5 (amended): for a handler definition with no specificUsePriorities,
the priorities assigned to its middleware are the strictly decreasing run
starting at `startingUsePriority || -1`: the declared startingUsePriority
when set and nonzero, and -1 when it is absent or explicitly 0. -/
theorem routeUses_strictly_decreasing (r : RouteData)
    (h : r.specificUsePriorities = none) :
    (routeUses r).map REntry.priority =
      descendingFrom (jsStart r.startingUsePriority) r.uses.length ∧
    ((routeUses r).map REntry.priority).Pairwise (fun a b => b < a) := by
  have h1 : (routeUses r).map REntry.priority =
      descendingFrom (jsStart r.startingUsePriority) r.uses.length := by
    rw [routeUses, h]
    exact assignGo_none_priorities r.uses (jsStart r.startingUsePriority) 0
  refine ⟨h1, ?_⟩
  rw [h1]
  exact pairwise_descendingFrom r.uses.length (jsStart r.startingUsePriority)

/-- C5 witness: the theorem applied to a handler with three unlabelled
middleware references and no starting priority. -/
theorem routeUses_strictly_decreasing_witness :
    (routeUses ⟨1, 0, none, none, [10, 11, 12]⟩).map REntry.priority =
      descendingFrom (jsStart none) 3 ∧
    ((routeUses ⟨1, 0, none, none, [10, 11, 12]⟩).map REntry.priority).Pairwise
      (fun a b => b < a) :=
  routeUses_strictly_decreasing ⟨1, 0, none, none, [10, 11, 12]⟩ rfl

/-! ### Subrouter mount position -/

theorem buildGo_eq (subs : List (List Char)) :
    ∀ entries : List REntry,
      buildGo subs entries =
        (entries.take (entries.findIdx (fun e => decide (e.priority ≤ 0)))).map
            BuildEvent.entry
          ++ subs.map (fun n => BuildEvent.mountSub (mountPath n))
          ++ (entries.drop (entries.findIdx (fun e => decide (e.priority ≤ 0)))).map
              BuildEvent.entry := by
  intro entries
  induction entries with
  | nil =>
    simp [buildGo]
  | cons e rest ih =>
    by_cases hp : e.priority ≤ 0
    · simp [buildGo, hp, List.findIdx_cons]
    · simp [buildGo, hp, List.findIdx_cons, ih]

/-- C4: the registration phase of one directory level mounts the queued
subdirectory routers exactly once, at the partition point: immediately
before the first entry of priority at most 0, after every entry when no
such entry exists (the find index is then the length), and as the whole
sequence when the level has no entries at all — each subdirectory mounted
at slash plus its name. -/
theorem buildSeq_mounts_once_at_partition (entries : List REntry)
    (subs : List (List Char)) :
    buildSeq entries subs =
      (entries.take (entries.findIdx (fun e => decide (e.priority ≤ 0)))).map
          BuildEvent.entry
        ++ subs.map (fun n => BuildEvent.mountSub (mountPath n))
        ++ (entries.drop (entries.findIdx (fun e => decide (e.priority ≤ 0)))).map
            BuildEvent.entry := by
  cases entries with
  | nil => simp [buildSeq]
  | cons e rest =>
    rw [buildSeq]
    simp only [List.isEmpty_cons, Bool.false_eq_true, if_false]
    exact buildGo_eq subs (e :: rest)

/-- C6 (code bug evaluated): scanning a directory whose first file fails to
load logs the load error but then aborts the whole scan with a TypeError
(reading `route.path` of the undefined module); the following loadable
file is never validated, so the scan does not continue past the failure. -/
theorem scanFiles_load_failure_is_fatal :
    scanFiles initialScanState
        [⟨("bad.js".data), false, .throws⟩,
         ⟨("good.js".data), false,
           .mod ⟨some ("/y".data), some 5, [("get".data)]⟩⟩]
      = (⟨[], [LogEvent.loadError ("bad.js".data)], []⟩, some JsError.typeError) := by
  rfl

/-! ### Middleware resolution over the search tree -/

theorem getUsesList_clean :
    ∀ l : FsEntries, cleanEntries l = true →
      getUsesList l = .ok (topLevelUses l)
  | .nil, _ => rfl
  | .cons n (.dir sub) rest, h => by
    simp only [cleanEntries, Bool.and_eq_true, Bool.not_eq_true'] at h
    obtain ⟨⟨hn, hsub⟩, hrest⟩ := h
    simp only [getUsesList, getUsesList_clean sub hsub, hn, Bool.false_eq_true,
      if_false, topLevelUses]
    exact getUsesList_clean rest hrest
  | .cons n (.file l) rest, h => by
    simp only [cleanEntries, Bool.and_eq_true] at h
    obtain ⟨hf, hrest⟩ := h
    by_cases hext : hasJsExt n = true
    · cases l with
      | throws =>
        rw [hext] at hf
        simp at hf
      | mod run nm pr =>
        cases run with
        | false =>
          simp only [getUsesList, hext, topLevelUses]
          simp only [getUsesList_clean rest hrest]
          simp [hext]
        | true =>
          simp only [getUsesList, hext, topLevelUses]
          simp only [getUsesList_clean rest hrest]
          simp [hext]
    · have hext2 : hasJsExt n = false := by simpa using hext
      simp only [getUsesList, hext2, topLevelUses]
      simp only [getUsesList_clean rest hrest]
      simp [hext2]

/-- C7 counterexample: a scanned directory holding only a subdirectory with
one loadable middleware module yields an empty result: the recursive scan
of the subdirectory runs but its entries are discarded, falsifying the
claim that every loadable module with a recognized extension is included. -/
theorem getUsesDir_discards_subdirectory_modules :
    getUsesDir (.cons ("sub".data)
        (FsNode.dir (.cons ("a.js".data)
          (FsNode.file (.mod true none (some 5))) .nil)) .nil)
      = Except.ok ([] : List UseEntry) ∧
    getUsesList (.cons ("a.js".data)
        (FsNode.file (.mod true none (some 5))) .nil)
      = Except.ok [⟨true, none, 5⟩] := by
  exact ⟨rfl, rfl⟩

/-- C7 (amended): on a well-formed search tree the resolver returns only
the modules DIRECTLY in the scanned directory (subdirectories are scanned
recursively but their entries are discarded); among those, modules without
a runnable function are skipped, priorities default to 0, and the result
is the stable descending-priority sort of the discovery order, hence
sorted with ties kept in discovery order. -/
theorem getUsesDir_top_level_sorted (entries : FsEntries)
    (h : cleanEntries entries = true) :
    getUsesDir entries =
      Except.ok (List.insertionSort (prioGe UseEntry.priority) (topLevelUses entries)) ∧
    List.Sorted (prioGe UseEntry.priority)
      (List.insertionSort (prioGe UseEntry.priority) (topLevelUses entries)) := by
  refine ⟨?_, List.sorted_insertionSort (prioGe UseEntry.priority) _⟩
  rw [getUsesDir, getUsesList_clean entries h]

/-- C7 witness: the theorem applied to a two-file directory. -/
theorem getUsesDir_top_level_sorted_witness :
    getUsesDir (.cons ("a.js".data) (FsNode.file (.mod true none (some 1)))
        (.cons ("b.js".data) (FsNode.file (.mod true none (some 5))) .nil))
      = Except.ok (List.insertionSort (prioGe UseEntry.priority)
          (topLevelUses (.cons ("a.js".data) (FsNode.file (.mod true none (some 1)))
            (.cons ("b.js".data) (FsNode.file (.mod true none (some 5))) .nil)))) ∧
    List.Sorted (prioGe UseEntry.priority)
      (List.insertionSort (prioGe UseEntry.priority)
        (topLevelUses (.cons ("a.js".data) (FsNode.file (.mod true none (some 1)))
          (.cons ("b.js".data) (FsNode.file (.mod true none (some 5))) .nil)))) :=
  getUsesDir_top_level_sorted
    (.cons ("a.js".data) (FsNode.file (.mod true none (some 1)))
      (.cons ("b.js".data) (FsNode.file (.mod true none (some 5))) .nil)) rfl

/-- C8 counterexample: two well-formed vhost candidates, the first of whose
routes directories contains a file that fails to load.  Loading the pair
aborts with the escaped TypeError and mounts nothing, although the second
vhost on its own loads and mounts fine — so a build failure in one vhost
does prevent the remaining vhosts from being built. -/
theorem loadVhosts_not_independent :
    loadVhosts
        [⟨("a.\x7b\x7d".data), [("routes".data)], [⟨("bad.js".data), false, .throws⟩]⟩,
         ⟨("b.\x7b\x7d".data), [("routes".data)], []⟩]
      = ([], some JsError.typeError) ∧
    loadVhosts [⟨("b.\x7b\x7d".data), [("routes".data)], []⟩]
      = ([("b.\x7b\x7d".data)], none) := by
  exact ⟨rfl, rfl⟩

/-- C8 (amended): vhosts are loaded sequentially with no per-vhost error
isolation: when an active vhost's build fails, the error escapes the loop,
so the vhosts after the failing one are never built or mounted, while the
ones before it keep their mounts. -/
theorem loadVhosts_failure_aborts_rest (pre : List VhostDir) (v : VhostDir)
    (post : List VhostDir) (e : JsError)
    (hactive : vhostActive v = true)
    (hfail : (buildVhostRoutes v).2 = some e)
    (hpre : ∀ u ∈ pre, vhostActive u = false ∨ (buildVhostRoutes u).2 = none) :
    loadVhosts (pre ++ v :: post) = ((loadVhosts pre).1, some e) := by
  induction pre with
  | nil =>
    simp [loadVhosts, hactive, hfail]
  | cons u pre ih =>
    have hu := hpre u (List.mem_cons_self u pre)
    have hpre2 : ∀ w ∈ pre, vhostActive w = false ∨ (buildVhostRoutes w).2 = none :=
      fun w hw => hpre w (List.mem_cons_of_mem u hw)
    by_cases ha : vhostActive u = true
    · have hn : (buildVhostRoutes u).2 = none := by
        rcases hu with h | h
        · rw [ha] at h
          cases h
        · exact h
      simp [List.cons_append, loadVhosts, ha, hn, ih hpre2]
    · have ha2 : vhostActive u = false := by simpa using ha
      simp [List.cons_append, loadVhosts, ha2, ih hpre2]

/-- C8 witness: the amended theorem applied to one healthy vhost followed
by a failing one and one more behind it. -/
theorem loadVhosts_failure_aborts_rest_witness :
    loadVhosts
        [⟨("z.\x7b\x7d".data), [("routes".data)], []⟩,
         ⟨("a.\x7b\x7d".data), [("routes".data)], [⟨("bad.js".data), false, .throws⟩]⟩,
         ⟨("c.\x7b\x7d".data), [("routes".data)], []⟩]
      = ((loadVhosts [⟨("z.\x7b\x7d".data), [("routes".data)], []⟩]).1,
          some JsError.typeError) :=
  loadVhosts_failure_aborts_rest
    [⟨("z.\x7b\x7d".data), [("routes".data)], []⟩]
    ⟨("a.\x7b\x7d".data), [("routes".data)], [⟨("bad.js".data), false, .throws⟩]⟩
    [⟨("c.\x7b\x7d".data), [("routes".data)], []⟩]
    JsError.typeError rfl rfl
    (by
      intro u hu
      rw [List.mem_singleton] at hu
      subst hu
      exact Or.inr rfl)

/-- C9: whenever the persistence layer has been initialised, `operation`
opens a connection, runs the supplied function on it, closes the
connection on the success path and on the error path alike, returns the
function's result on success and re-throws its error after the close. -/
theorem operation_opens_runs_closes {α : Type} (ready : Bool)
    (f : Nat → Except Nat α) (h : ready = true) :
    (operation ready f).1 = [DbEvent.opened, DbEvent.closed] ∧
    (operation ready f).2 = (f 0).mapError OpError.fromF := by
  subst h
  cases hf : f 0 <;> simp [operation, hf, Except.mapError]

/-- C9 witness: the theorem applied to an initialised manager with one
succeeding and one failing function. -/
theorem operation_opens_runs_closes_witness :
    ((operation true (fun _ => Except.ok (5 : Nat))).1
        = [DbEvent.opened, DbEvent.closed] ∧
      (operation true (fun _ => Except.ok (5 : Nat))).2
        = ((fun _ => Except.ok (5 : Nat)) 0).mapError OpError.fromF) ∧
    ((operation true (fun _ => (Except.error 3 : Except Nat Nat))).1
        = [DbEvent.opened, DbEvent.closed] ∧
      (operation true (fun _ => (Except.error 3 : Except Nat Nat))).2
        = ((fun _ => (Except.error 3 : Except Nat Nat)) 0).mapError OpError.fromF) :=
  ⟨operation_opens_runs_closes true (fun _ => Except.ok 5) rfl,
   operation_opens_runs_closes true (fun _ => Except.error 3) rfl⟩

/-! ### Directory registration invariants -/

theorem nodup_add_unique (l : List (List Char)) (d : List Char) (h : l.Nodup) :
    (if l.contains d then l else l ++ [d]).Nodup := by
  by_cases hm : d ∈ l
  · simpa [hm] using h
  · have he : (if l.contains d then l else l ++ [d]) = l ++ [d] := by simp [hm]
    rw [he]
    refine h.append (List.nodup_singleton d) ?_
    intro x hx hx2
    rw [List.mem_singleton] at hx2
    subst hx2
    exact hm hx

theorem applyOp_nodup (s : SMState) (op : DirOp) (h : nodupState s) :
    nodupState (applyOp s op) := by
  obtain ⟨h1, h2, h3, h4⟩ := h
  cases op with
  | addRoute d =>
    by_cases habs : isAbsolutePath d = false
    · simp only [applyOp, addRouteDirectory, habs]
      exact ⟨h1, h2, h3, h4⟩
    · have habs2 : isAbsolutePath d = true := by simpa using habs
      simp only [applyOp, addRouteDirectory, habs2, Bool.true_eq_false, if_false]
      exact ⟨h1, nodup_add_unique s.routeDirectories d h2, h3, h4⟩
  | addUse d =>
    by_cases habs : isAbsolutePath d = false
    · simp only [applyOp, addUseDirectory, habs]
      exact ⟨h1, h2, h3, h4⟩
    · have habs2 : isAbsolutePath d = true := by simpa using habs
      simp only [applyOp, addUseDirectory, habs2, Bool.true_eq_false, if_false]
      exact ⟨h1, h2, h3, nodup_add_unique s.useDirectories d h4⟩
  | addStatic d =>
    by_cases habs : isAbsolutePath d = false
    · simp only [applyOp, addStaticDirectory, habs]
      exact ⟨h1, h2, h3, h4⟩
    · have habs2 : isAbsolutePath d = true := by simpa using habs
      simp only [applyOp, addStaticDirectory, habs2, Bool.true_eq_false, if_false]
      exact ⟨h1, h2, nodup_add_unique s.staticDirectories d h3, h4⟩
  | addVhost d =>
    by_cases habs : isAbsolutePath d = false
    · simp only [applyOp, addVhostDirectory, habs]
      exact ⟨h1, h2, h3, h4⟩
    · have habs2 : isAbsolutePath d = true := by simpa using habs
      simp only [applyOp, addVhostDirectory, habs2, Bool.true_eq_false, if_false]
      exact ⟨nodup_add_unique s.vhostDirectories d h1, h2, h3, h4⟩

theorem applyOps_nodup :
    ∀ (ops : List DirOp) (s : SMState), nodupState s → nodupState (applyOps s ops) := by
  intro ops
  induction ops with
  | nil =>
    intro s h
    exact h
  | cons op ops ih =>
    intro s h
    exact ih (applyOp s op) (applyOp_nodup s op h)

/-- C10: every directory-registration method throws on a non-absolute path
and leaves the state unchanged in that case; on an absolute path, adding
the same directory twice equals adding it once; and all four directory
lists remain duplicate-free under every sequence of registration calls
starting from a duplicate-free state (in particular from the constructor
state of four empty lists). -/
theorem addDirectory_invariants (s : SMState) (d : List Char) (ops : List DirOp) :
    (isAbsolutePath d = false →
      addRouteDirectory s d = (s, some JsError.pathNotAbsolute) ∧
      addUseDirectory s d = (s, some JsError.pathNotAbsolute) ∧
      addStaticDirectory s d = (s, some JsError.pathNotAbsolute) ∧
      addVhostDirectory s d = (s, some JsError.pathNotAbsolute)) ∧
    (isAbsolutePath d = true →
      (addRouteDirectory (addRouteDirectory s d).1 d).1 = (addRouteDirectory s d).1 ∧
      (addUseDirectory (addUseDirectory s d).1 d).1 = (addUseDirectory s d).1 ∧
      (addStaticDirectory (addStaticDirectory s d).1 d).1 = (addStaticDirectory s d).1 ∧
      (addVhostDirectory (addVhostDirectory s d).1 d).1 = (addVhostDirectory s d).1) ∧
    (nodupState s → nodupState (applyOps s ops)) := by
  refine ⟨?_, ?_, applyOps_nodup ops s⟩
  · intro h
    refine ⟨?_, ?_, ?_, ?_⟩ <;>
      simp [addRouteDirectory, addUseDirectory, addStaticDirectory,
        addVhostDirectory, h]
  · intro h
    refine ⟨?_, ?_, ?_, ?_⟩
    · by_cases hm : d ∈ s.routeDirectories <;> simp [addRouteDirectory, h, hm]
    · by_cases hm : d ∈ s.useDirectories <;> simp [addUseDirectory, h, hm]
    · by_cases hm : d ∈ s.staticDirectories <;> simp [addStaticDirectory, h, hm]
    · by_cases hm : d ∈ s.vhostDirectories <;> simp [addVhostDirectory, h, hm]

/-- C10 witness: the theorem applied to the constructor state, a relative
path, an absolute path and a short operation sequence. -/
theorem addDirectory_invariants_witness :
    ((isAbsolutePath ("rel/path".data) = false →
        addRouteDirectory initialSMState ("rel/path".data)
          = (initialSMState, some JsError.pathNotAbsolute) ∧
        addUseDirectory initialSMState ("rel/path".data)
          = (initialSMState, some JsError.pathNotAbsolute) ∧
        addStaticDirectory initialSMState ("rel/path".data)
          = (initialSMState, some JsError.pathNotAbsolute) ∧
        addVhostDirectory initialSMState ("rel/path".data)
          = (initialSMState, some JsError.pathNotAbsolute)) ∧
      (isAbsolutePath ("rel/path".data) = true →
        (addRouteDirectory (addRouteDirectory initialSMState ("rel/path".data)).1
            ("rel/path".data)).1
          = (addRouteDirectory initialSMState ("rel/path".data)).1 ∧
        (addUseDirectory (addUseDirectory initialSMState ("rel/path".data)).1
            ("rel/path".data)).1
          = (addUseDirectory initialSMState ("rel/path".data)).1 ∧
        (addStaticDirectory (addStaticDirectory initialSMState ("rel/path".data)).1
            ("rel/path".data)).1
          = (addStaticDirectory initialSMState ("rel/path".data)).1 ∧
        (addVhostDirectory (addVhostDirectory initialSMState ("rel/path".data)).1
            ("rel/path".data)).1
          = (addVhostDirectory initialSMState ("rel/path".data)).1) ∧
      (nodupState initialSMState →
        nodupState (applyOps initialSMState
          [DirOp.addRoute ("/a".data), DirOp.addRoute ("/a".data),
           DirOp.addUse ("/b".data), DirOp.addVhost ("/c".data),
           DirOp.addStatic ("/a".data)]))) ∧
    isAbsolutePath ("rel/path".data) = false ∧
    nodupState (applyOps initialSMState
      [DirOp.addRoute ("/a".data), DirOp.addRoute ("/a".data),
       DirOp.addUse ("/b".data), DirOp.addVhost ("/c".data),
       DirOp.addStatic ("/a".data)]) :=
  ⟨addDirectory_invariants initialSMState ("rel/path".data)
      [DirOp.addRoute ("/a".data), DirOp.addRoute ("/a".data),
       DirOp.addUse ("/b".data), DirOp.addVhost ("/c".data),
       DirOp.addStatic ("/a".data)],
   rfl,
   (addDirectory_invariants initialSMState ("rel/path".data)
      [DirOp.addRoute ("/a".data), DirOp.addRoute ("/a".data),
       DirOp.addUse ("/b".data), DirOp.addVhost ("/c".data),
       DirOp.addStatic ("/a".data)]).2.2 (by decide)⟩
